import Mathlib

/-!
Shallow embedding of the timetable scheduling core of `backend/api.py`
(class `TimetableAPI`): the catalog loader (`fetch_data`), the randomized
slot generator (`generate_in_memory_timetable`) and the constraint
validator (`validate_generated_slots`), together with proofs of the
specification claims about them.

Python dictionaries are modelled as association lists `List (String × α)`
(Python 3.7+ dicts preserve insertion order; lookup is first-match since
keys are unique in an actual dict).  The random number generator is
modelled by an explicit stream of naturals (`List Nat`), each
`random.choice(xs)` consuming one number `r` and picking `xs[r % len xs]`,
and `random.shuffle` is modelled by an arbitrary function parameter
(instantiated or constrained to permutations where a claim needs it).
Machine integers are `Nat` (all the relevant quantities in the source are
non-negative counts and hour quotas; Python `max(0, a - b)` coincides with
truncated `Nat` subtraction).
-/

/-- A `users` table row as kept by `TimetableAPI.fetch_data` (only rows with
role `"faculty"` are stored; `email`/`password` are never read by the core). -/
structure User where
  id : String
  name : String
  role : String
deriving DecidableEq, Repr

/-- A `classrooms` table row.  The source field `type` (one of `"lecture"`,
`"lab"`) is named `ctype` here because `type` is a Lean keyword. -/
structure Classroom where
  id : String
  name : String
  capacity : Nat
  ctype : String
deriving DecidableEq, Repr

/-- A `subjects` table row. -/
structure Subject where
  id : String
  name : String
  credits : Nat
  weekly_hours : Nat
  department : String
deriving DecidableEq, Repr

/-- A `faculty_subject_map` table row (a Qualification). -/
structure Mapping where
  faculty_id : String
  subject_id : String
  max_hours_per_week : Nat
  avg_leaves_per_month : Nat
deriving DecidableEq, Repr

/-- A `batches` table row. -/
structure Batch where
  id : String
  name : String
  size : Nat
  department : String
deriving DecidableEq, Repr

/-- A timetable slot as built by `generate_in_memory_timetable`. -/
structure Slot where
  id : String
  day : String
  time : String
  classroom_id : String
  subject_id : String
  faculty_id : String
  batch_id : String
deriving DecidableEq, Repr

/-- The in-memory data storage of a `TimetableAPI` instance
(`self.users`, `self.classrooms`, `self.subjects`,
`self.faculty_subject_map`, `self.batches`), each dict modelled as an
insertion-ordered association list. -/
structure Catalog where
  users : List (String × User)
  classrooms : List (String × Classroom)
  subjects : List (String × Subject)
  faculty_subject_map : List (String × List Mapping)
  batches : List (String × Batch)
deriving DecidableEq, Repr

/-- The state set up by `TimetableAPI.__init__`: all five maps empty. -/
def initialCatalog : Catalog :=
  { users := [], classrooms := [], subjects := [], faculty_subject_map := [], batches := [] }

/-- Python dict read `d[k]` / `d.get(k)`: first entry with the key. -/
def dictLookup (d : List (String × α)) (k : String) : Option α :=
  (d.find? (fun p => p.1 == k)).map Prod.snd

/-- Python dict write `d[k] = v`: replace the value in place if the key
exists, otherwise append the new key at the end (dict insertion order). -/
def dictInsert (d : List (String × α)) (k : String) (v : α) : List (String × α) :=
  match d with
  | [] => [(k, v)]
  | p :: rest => if p.1 == k then (k, v) :: rest else p :: dictInsert rest k v

/-- `self.days` (fixed configuration constant). -/
def days : List String := ["Monday", "Tuesday", "Wednesday", "Thursday", "Friday"]

/-- `self.time_slots` (fixed configuration constant). -/
def time_slots : List String :=
  ["9:00-10:00", "10:00-11:00", "11:00-12:00", "12:00-13:00",
   "13:00-14:00", "14:00-15:00", "15:00-16:00"]

/-! ## Catalog loader (`TimetableAPI.fetch_data`)

Each of the five bulk reads either raises a network exception
(`ReadOutcome.exc`, the `requests.get` call failing) or completes with an
HTTP status code and a JSON body.  The source checks `status_code == 200`
for each read separately; a non-200 response is silently skipped.  A raised
exception aborts the whole method (the surrounding `try`) after the
mutations performed so far, and `fetch_data` returns `False`; otherwise it
returns `True`. -/

/-- Outcome of one `requests.get` bulk read. -/
inductive ReadOutcome (α : Type) where
  | exc : ReadOutcome α
  | resp : Nat → List α → ReadOutcome α
deriving DecidableEq, Repr

/-- The five bulk reads performed by `fetch_data`, in source order. -/
structure StoreReads where
  users : ReadOutcome User
  classrooms : ReadOutcome Classroom
  subjects : ReadOutcome Subject
  faculty_subject_map : ReadOutcome Mapping
  batches : ReadOutcome Batch
deriving Repr

/-- Lines 180-182: `for user in ...: if user['role'] == 'faculty': self.users[user['id']] = user`. -/
def mergeUsers (cat : Catalog) (us : List User) : Catalog :=
  { cat with users :=
      us.foldl (fun d u => if u.role == "faculty" then dictInsert d u.id u else d) cat.users }

/-- Lines 187-188: `self.classrooms[classroom['id']] = classroom`. -/
def mergeClassrooms (cat : Catalog) (cs : List Classroom) : Catalog :=
  { cat with classrooms := cs.foldl (fun d c => dictInsert d c.id c) cat.classrooms }

/-- Lines 193-194: `self.subjects[subject['id']] = subject`. -/
def mergeSubjects (cat : Catalog) (ss : List Subject) : Catalog :=
  { cat with subjects := ss.foldl (fun d s => dictInsert d s.id s) cat.subjects }

/-- Lines 199-203: create an empty list for an unseen `faculty_id`, then
`self.faculty_subject_map[faculty_id].append(mapping)`.  Note: the existing
list is appended to, never cleared. -/
def insertMapping (d : List (String × List Mapping)) (m : Mapping) :
    List (String × List Mapping) :=
  match dictLookup d m.faculty_id with
  | none => d ++ [(m.faculty_id, [m])]
  | some maps => dictInsert d m.faculty_id (maps ++ [m])

/-- Lines 199-203 for a whole response body. -/
def mergeMappings (cat : Catalog) (ms : List Mapping) : Catalog :=
  { cat with faculty_subject_map := ms.foldl insertMapping cat.faculty_subject_map }

/-- Lines 208-209: `self.batches[batch['id']] = batch`. -/
def mergeBatches (cat : Catalog) (bs : List Batch) : Catalog :=
  { cat with batches := bs.foldl (fun d b => dictInsert d b.id b) cat.batches }

/-- `TimetableAPI.fetch_data` (lines 174-214): performs the five bulk reads
in order, merging each `status_code == 200` body into the existing maps and
silently skipping other status codes; a raised exception returns `False`
immediately (keeping the mutations already performed), otherwise the method
returns `True`. -/
def fetch_data (cat : Catalog) (reads : StoreReads) : Bool × Catalog :=
  match reads.users with
  | .exc => (false, cat)
  | .resp code us =>
    let cat1 := if code == 200 then mergeUsers cat us else cat
    match reads.classrooms with
    | .exc => (false, cat1)
    | .resp code cs =>
      let cat2 := if code == 200 then mergeClassrooms cat1 cs else cat1
      match reads.subjects with
      | .exc => (false, cat2)
      | .resp code ss =>
        let cat3 := if code == 200 then mergeSubjects cat2 ss else cat2
        match reads.faculty_subject_map with
        | .exc => (false, cat3)
        | .resp code ms =>
          let cat4 := if code == 200 then mergeMappings cat3 ms else cat3
          match reads.batches with
          | .exc => (false, cat4)
          | .resp code bs =>
            (true, if code == 200 then mergeBatches cat4 bs else cat4)

/-- `True` when one of the five bulk reads raises an exception. -/
def hasExcRead (reads : StoreReads) : Bool :=
  (match reads.users with | .exc => true | .resp _ _ => false) ||
  (match reads.classrooms with | .exc => true | .resp _ _ => false) ||
  (match reads.subjects with | .exc => true | .resp _ _ => false) ||
  (match reads.faculty_subject_map with | .exc => true | .resp _ _ => false) ||
  (match reads.batches with | .exc => true | .resp _ _ => false)

/-! ## Catalog accessors -/

/-- `TimetableAPI.get_subject_faculty` (lines 221-227): every `faculty_id`
key of the qualification multimap, repeated once per mapping entry whose
`subject_id` matches. -/
def get_subject_faculty (cat : Catalog) (subject_id : String) : List String :=
  cat.faculty_subject_map.flatMap (fun p =>
    (p.2.filter (fun m => m.subject_id == subject_id)).map (fun _ => p.1))

/-- `TimetableAPI.get_faculty_subject_max_hours` (lines 229-235): the
`max_hours_per_week` of the first mapping entry for the pair, defaulting to
`10 ^ 6` when the faculty or the pair is unknown. -/
def get_faculty_subject_max_hours (cat : Catalog) (faculty_id subject_id : String) : Nat :=
  match dictLookup cat.faculty_subject_map faculty_id with
  | none => 1000000
  | some maps =>
    match maps.find? (fun m => m.subject_id == subject_id) with
    | some m => m.max_hours_per_week
    | none => 1000000

/-- `TimetableAPI.get_subjects_for_batch` (lines 237-239): ids of the
subjects whose department equals the batch's department.  (The Python
`self.batches[batch_id]` raises on an unknown id; every call site passes an
existing key, for which `dictLookup` succeeds, so the `none` branch is
unreachable there.) -/
def get_subjects_for_batch (cat : Catalog) (batch_id : String) : List String :=
  match dictLookup cat.batches batch_id with
  | none => []
  | some b => (cat.subjects.filter (fun p => p.2.department == b.department)).map Prod.fst

/-- `self.subjects[subject_id]['weekly_hours']` (line 291 / 404); call
sites only pass existing subject ids. -/
def subject_weekly_hours (cat : Catalog) (subject_id : String) : Nat :=
  match dictLookup cat.subjects subject_id with
  | some s => s.weekly_hours
  | none => 0

/-- Subject name lookup.  The validator's faculty section uses
`self.subjects.get(sid, {}).get('name', sid)` (line 485), falling back to
the id; the batch section indexes directly but only with existing ids. -/
def subject_name (cat : Catalog) (subject_id : String) : String :=
  match dictLookup cat.subjects subject_id with
  | some s => s.name
  | none => subject_id

/-- ASCII model of Python `str.lower` on one character. -/
def lowerChar (c : Char) : Char :=
  if 65 ≤ c.toNat && c.toNat ≤ 90 then Char.ofNat (c.toNat + 32) else c

/-- Substring test `'lab' in cs` on a character list. -/
def hasLabSub : List Char → Bool
  | 'l' :: 'a' :: 'b' :: _ => true
  | _ :: rest => hasLabSub rest
  | [] => false

/-- Python `'lab' in name.lower()` (lines 324 and 424). -/
def nameRequiresLab (name : String) : Bool :=
  hasLabSub (name.data.map lowerChar)

/-- The room kind required by a subject:
`'lab' if 'lab' in subject['name'].lower() else 'lecture'`
(computed identically at lines 323-324 and 424). -/
def subject_required_type (cat : Catalog) (subject_id : String) : String :=
  match dictLookup cat.subjects subject_id with
  | some s => if nameRequiresLab s.name then "lab" else "lecture"
  | none => "lecture"

/-! ## Availability helpers (lines 241-266) -/

/-- `TimetableAPI._is_classroom_available_local`. -/
def _is_classroom_available_local (slots : List Slot) (classroom_id day time_slot : String) : Bool :=
  slots.all (fun s => !(s.classroom_id == classroom_id && s.day == day && s.time == time_slot))

/-- `TimetableAPI._is_faculty_available_local`. -/
def _is_faculty_available_local (slots : List Slot) (faculty_id day time_slot : String) : Bool :=
  slots.all (fun s => !(s.faculty_id == faculty_id && s.day == day && s.time == time_slot))

/-- `TimetableAPI._is_batch_available_local`. -/
def _is_batch_available_local (slots : List Slot) (batch_id day time_slot : String) : Bool :=
  slots.all (fun s => !(s.batch_id == batch_id && s.day == day && s.time == time_slot))

/-- `TimetableAPI._get_available_classrooms_local` (lines 259-266).  Every
generator call passes a non-`None` `subject_type`, so the type filter is
always active. -/
def _get_available_classrooms_local (cat : Catalog) (slots : List Slot)
    (day time_slot subject_type : String) : List String :=
  (cat.classrooms.filter (fun p =>
      p.2.ctype == subject_type && _is_classroom_available_local slots p.1 day time_slot)).map
    Prod.fst

/-! ## Slot generator (`TimetableAPI.generate_in_memory_timetable`, lines 268-345) -/

/-- Key of the `faculty_subject_hours` counter dict: `f"{faculty_id}::{subject_id}"`. -/
def fskey (faculty_id subject_id : String) : String :=
  faculty_id ++ "::" ++ subject_id

/-- `time_slot.replace(':', '')` (line 332). -/
def stripColons (s : String) : String :=
  String.mk (s.data.filter (fun c => !(c == ':')))

/-- The generated slot id
`f"{batch_id}_{subject_id}_{day}_{time_slot.replace(':', '')}"` (line 332). -/
def mkSlotId (batch_id subject_id day time_slot : String) : String :=
  batch_id ++ "_" ++ subject_id ++ "_" ++ day ++ "_" ++ stripColons time_slot

/-- Draw the next number from the random stream (`0` once exhausted). -/
def nextRand : List Nat → Nat × List Nat
  | [] => (0, [])
  | r :: rs => (r, rs)

/-- `random.choice(xs)`: the element at the drawn index, reduced modulo the
length.  Only used on non-empty lists in the source. -/
def randChoice (xs : List String) (r : Nat) : String :=
  xs.getD (r % xs.length) ""

/-- Generator state threaded through the placement loops: the
`generated_slots` list, the `faculty_subject_hours` counter dict (modelled
extensionally, default value `0`), and the remaining random stream.  (The
`scheduled_hours` dict of the source is write-only — it never influences
any decision or the returned slots — and is omitted.) -/
structure GenState where
  slots : List Slot
  fsh : String → Nat
  rand : List Nat

/-- One iteration of the `while not scheduled` loop (lines 301-344): pick a
random cell, check batch availability, compute candidate faculty (free at
the cell and strictly below their per-pair `max_hours_per_week`), compute
candidate classrooms of the required kind, and on success choose a faculty
and classroom at random and emit the slot, bumping the pair counter. -/
def attempt_place (cat : Catalog) (batch_id subject_id : String)
    (faculty_options : List String) (st : GenState) : GenState × Option Slot :=
  let (r1, rand1) := nextRand st.rand
  let day := randChoice days r1
  let (r2, rand2) := nextRand rand1
  let time_slot := randChoice time_slots r2
  if !(_is_batch_available_local st.slots batch_id day time_slot) then
    ({ st with rand := rand2 }, none)
  else
    let available_faculty := faculty_options.filter (fun faculty_id =>
      _is_faculty_available_local st.slots faculty_id day time_slot &&
      decide (st.fsh (fskey faculty_id subject_id) <
        get_faculty_subject_max_hours cat faculty_id subject_id))
    if available_faculty.isEmpty then
      ({ st with rand := rand2 }, none)
    else
      let subject_type := subject_required_type cat subject_id
      let available_classrooms :=
        _get_available_classrooms_local cat st.slots day time_slot subject_type
      if available_classrooms.isEmpty then
        ({ st with rand := rand2 }, none)
      else
        let (r3, rand3) := nextRand rand2
        let faculty_id := randChoice available_faculty r3
        let (r4, rand4) := nextRand rand3
        let classroom_id := randChoice available_classrooms r4
        let slot : Slot :=
          { id := mkSlotId batch_id subject_id day time_slot
            day := day
            time := time_slot
            classroom_id := classroom_id
            subject_id := subject_id
            faculty_id := faculty_id
            batch_id := batch_id }
        ({ slots := st.slots ++ [slot]
           fsh := fun k => if k == fskey faculty_id subject_id then st.fsh k + 1 else st.fsh k
           rand := rand4 }, some slot)

/-- The bounded retry loop (`attempts < max_attempts`, lines 299-344),
with the remaining attempt budget as fuel. -/
def try_schedule (cat : Catalog) (batch_id subject_id : String)
    (faculty_options : List String) : Nat → GenState → GenState
  | 0, st => st
  | Nat.succ n, st =>
    match attempt_place cat batch_id subject_id faculty_options st with
    | (st', some _) => st'
    | (st', none) => try_schedule cat batch_id subject_id faculty_options n st'

/-- `max_attempts = 200` (line 300). -/
def max_attempts : Nat := 200

/-- One placement task (lines 294-344): skip the task when no faculty is
qualified for the subject, otherwise run the retry loop. -/
def schedule_task (cat : Catalog) (batch_id : String) (st : GenState) (subject_id : String) :
    GenState :=
  let faculty_options := get_subject_faculty cat subject_id
  if faculty_options.isEmpty then st
  else try_schedule cat batch_id subject_id faculty_options max_attempts st

/-- The flat per-batch task list (lines 288-291): each curriculum subject
repeated `weekly_hours` times. -/
def flatTasks (cat : Catalog) (batch_id : String) : List String :=
  (get_subjects_for_batch cat batch_id).flatMap
    (fun sid => List.replicate (subject_weekly_hours cat sid) sid)

/-- Per-batch scheduling (lines 284-344): build the flat task list with each
curriculum subject repeated `weekly_hours` times, shuffle it, and run every
task. -/
def schedule_batch (cat : Catalog) (shuffle : List String → List String)
    (st : GenState) (entry : String × Batch) : GenState :=
  let subject_ids := get_subjects_for_batch cat entry.1
  if subject_ids.isEmpty then st
  else
    let subjects_to_schedule := shuffle (flatTasks cat entry.1)
    subjects_to_schedule.foldl (schedule_task cat entry.1) st

/-- `TimetableAPI.generate_in_memory_timetable` (lines 268-345) after its
initial `fetch_data` call succeeded: iterate the batches dict, scheduling
each batch's tasks against the accumulated slot list. -/
def generate_in_memory_timetable (cat : Catalog) (shuffle : List String → List String)
    (rand : List Nat) : List Slot :=
  (cat.batches.foldl (schedule_batch cat shuffle) { slots := [], fsh := fun _ => 0, rand := rand }).slots

/-- Lines 270-272: the generator first re-runs `fetch_data` and returns the
empty slot list when it reports failure. -/
def generate_with_fetch (cat : Catalog) (reads : StoreReads)
    (shuffle : List String → List String) (rand : List Nat) : List Slot :=
  let (ok, cat') := fetch_data cat reads
  if ok then generate_in_memory_timetable cat' shuffle rand else []

/-! ## Constraint validator (`TimetableAPI.validate_generated_slots`, lines 347-519) -/

/-- `max_weekly_slots = len(self.days) * len(self.time_slots)` (lines 350-351). -/
def max_weekly_slots : Nat := days.length * time_slots.length

/-- `max_faculty_hours = 30  # default policy` (line 352). -/
def max_faculty_hours : Nat := 30

/-- `batch_subject_hours[b][s]` (lines 355-376): the number of slots of
batch `b` for subject `s`.  (The source dict restricts its domain to known
batch and subject ids, and is only read at such ids.) -/
def batch_subject_hours (slots : List Slot) (batch_id subject_id : String) : Nat :=
  (slots.filter (fun sl => sl.batch_id == batch_id && sl.subject_id == subject_id)).length

/-- `batch_total_hours[b]` (lines 356-376). -/
def batch_total_hours (slots : List Slot) (batch_id : String) : Nat :=
  (slots.filter (fun sl => sl.batch_id == batch_id)).length

/-- `faculty_hours[f]` (lines 357-378), also the `per_subject` dict of the
faculty section (lines 474-478) evaluated at a single subject. -/
def faculty_hours (slots : List Slot) (faculty_id : String) : Nat :=
  (slots.filter (fun sl => sl.faculty_id == faculty_id)).length

/-- `classroom_usage[c]` (lines 358-380). -/
def classroom_usage (slots : List Slot) (classroom_id : String) : Nat :=
  (slots.filter (fun sl => sl.classroom_id == classroom_id)).length

/-- `per_faculty_subject_assigned[f][s]` (lines 390-396, default `0`). -/
def per_faculty_subject_assigned (slots : List Slot) (faculty_id subject_id : String) : Nat :=
  (slots.filter (fun sl => sl.faculty_id == faculty_id && sl.subject_id == subject_id)).length

/-- Inner loop of the remaining-capacity estimate (lines 418-423) for one
`faculty_id` entry of the qualification multimap: scan its mapping list,
and on the first mapping for the subject (while the faculty id is not yet
in `seen`) add `max(0, max_hours_per_week - assigned)` — truncated `Nat`
subtraction — and mark the faculty id as seen. -/
def rc_scan (assigned : Nat) (subject_id faculty_id : String) :
    List Mapping → List String → Nat → List String × Nat
  | [], seen, acc => (seen, acc)
  | m :: ms, seen, acc =>
    if m.subject_id == subject_id && !(seen.contains faculty_id) then
      rc_scan assigned subject_id faculty_id ms (faculty_id :: seen)
        (acc + (m.max_hours_per_week - assigned))
    else
      rc_scan assigned subject_id faculty_id ms seen acc

/-- Outer loop of the remaining-capacity estimate (lines 415-423) over the
entries of `self.faculty_subject_map`, threading the `seen` set. -/
def rc_outer (slots : List Slot) (subject_id : String) :
    List (String × List Mapping) → List String → Nat → Nat
  | [], _, acc => acc
  | p :: rest, seen, acc =>
    let r := rc_scan (per_faculty_subject_assigned slots p.1 subject_id) subject_id p.1 p.2 seen acc
    rc_outer slots subject_id rest r.1 r.2

/-- `remaining_capacity` for a deficit subject (lines 415-423).  (The
`qualified` list comprehensions of lines 411-414 are dead code: the
variable is never read afterwards.) -/
def remaining_capacity_for (cat : Catalog) (slots : List Slot) (subject_id : String) : Nat :=
  rc_outer slots subject_id cat.faculty_subject_map [] 0

/-- The per-subject body of the batch validation loop (lines 403-439): the
error strings and suggestion strings this curriculum subject contributes. -/
def subject_check (cat : Catalog) (slots : List Slot) (batch_id subject_id : String) :
    List String × List String :=
  let required := subject_weekly_hours cat subject_id
  let scheduled := batch_subject_hours slots batch_id subject_id
  if scheduled == required then ([], [])
  else
    let name := subject_name cat subject_id
    let err := "Subject " ++ name ++ ": " ++ toString scheduled ++ "/" ++
      toString required ++ " hours"
    if scheduled < required then
      let deficit := required - scheduled
      let remaining_capacity := remaining_capacity_for cat slots subject_id
      let subject_type := subject_required_type cat subject_id
      let type_rooms := (cat.classrooms.filter (fun p => p.2.ctype == subject_type)).map Prod.fst
      ([err],
       ["Schedule additional " ++ toString deficit ++ " hour(s) for " ++ name ++ "."] ++
       (if remaining_capacity < deficit then
          ["Add new qualified faculty for this subject or increase max_hours_per_week for existing qualified faculty."]
        else
          ["Reassign this subject\x27s hours to qualified faculty with remaining capacity."]) ++
       (if type_rooms.isEmpty then
          ["Add new " ++ subject_type ++ " classrooms to accommodate this subject."]
        else []) ++
       ["Extend working hours or add time slots to fit remaining classes."])
    else
      ([err],
       ["Reduce allocation by " ++ toString (scheduled - required) ++ " hour(s) for " ++
          name ++ ".",
        "Verify subject weekly_hours configuration.",
        "Consolidate duplicate or conflicting entries."])

/-- One batch's validation entry (lines 399-456). -/
structure BatchReport where
  status : String
  errors : List String
  suggestions : List String
  scheduled_total_hours : Nat
  required_total_hours : Nat
  max_weekly_slots : Nat
deriving DecidableEq, Repr

/-- `validations['batches'][batch_id]` (lines 399-456): per-subject checks
in curriculum order, then the total-capacity check. -/
def validate_batch (cat : Catalog) (slots : List Slot) (batch_id : String) : BatchReport :=
  let curriculum := get_subjects_for_batch cat batch_id
  let checks := curriculum.map (subject_check cat slots batch_id)
  let errors0 := (checks.map Prod.fst).flatten
  let suggestions0 := (checks.map Prod.snd).flatten
  let required_total := (curriculum.map (subject_weekly_hours cat)).sum
  let overCap := decide (required_total > max_weekly_slots)
  let errors := errors0 ++
    (if overCap then
      ["Required total hours " ++ toString required_total ++
        " exceed available weekly slots " ++ toString max_weekly_slots]
     else [])
  let suggestions := suggestions0 ++
    (if overCap then
      ["Reduce weekly_hours for some subjects or split across terms.",
       "Add additional time slots per day or extend working hours.",
       "Increase resource capacity (more classrooms or parallel sessions)."]
     else [])
  { status := if errors.isEmpty then "OK" else "ERROR"
    errors := errors
    suggestions := suggestions
    scheduled_total_hours := batch_total_hours slots batch_id
    required_total_hours := required_total
    max_weekly_slots := max_weekly_slots }

/-- One faculty member's validation entry (lines 459-497). -/
structure FacultyReport where
  status : String
  errors : List String
  suggestions : List String
  assigned_hours : Nat
  max_weekly_hours : Nat
deriving DecidableEq, Repr

/-- `validations['faculty'][faculty_id]` (lines 459-497): the global-hours
ceiling check followed by the per-qualification `max_hours_per_week` checks. -/
def validate_faculty (cat : Catalog) (slots : List Slot) (faculty_id : String) : FacultyReport :=
  let hours := faculty_hours slots faculty_id
  let over := decide (hours > max_faculty_hours)
  let e1 : List String :=
    if over then
      ["Assigned " ++ toString hours ++ " hours exceeds max_weekly_hours " ++
        toString max_faculty_hours]
    else []
  let s1 : List String :=
    if over then
      ["Reassign some classes to other qualified faculty.",
       "Add new faculty for overloaded subjects.",
       "Increase this faculty\x27s max_weekly_hours above " ++ toString max_faculty_hours ++
         " if policy allows."]
    else []
  let maps := (dictLookup cat.faculty_subject_map faculty_id).getD []
  let perSubjectChecks := maps.map (fun m =>
    let actual := per_faculty_subject_assigned slots faculty_id m.subject_id
    if actual > m.max_hours_per_week then
      (["Subject " ++ subject_name cat m.subject_id ++ ": " ++ toString actual ++
          " exceeds max_hours_per_week " ++ toString m.max_hours_per_week],
       ["Reassign some hours of this subject to other qualified faculty.",
        "Add new qualified faculty for this subject.",
        "Increase max_hours_per_week for this faculty on this subject."])
    else (([] : List String), ([] : List String)))
  let errors := e1 ++ (perSubjectChecks.map Prod.fst).flatten
  let suggestions := s1 ++ (perSubjectChecks.map Prod.snd).flatten
  { status := if errors.isEmpty then "OK" else "ERROR"
    errors := errors
    suggestions := suggestions
    assigned_hours := hours
    max_weekly_hours := max_faculty_hours }

/-- One classroom's validation entry (lines 500-517). -/
structure ClassroomReport where
  status : String
  errors : List String
  suggestions : List String
  usage_hours : Nat
  max_weekly_slots : Nat
deriving DecidableEq, Repr

/-- `validations['classrooms'][classroom_id]` (lines 500-517). -/
def validate_classroom (slots : List Slot) (classroom_id : String) : ClassroomReport :=
  let usage := classroom_usage slots classroom_id
  let over := decide (usage > max_weekly_slots)
  { status := if over then "ERROR" else "OK"
    errors :=
      if over then
        ["Usage " ++ toString usage ++ " exceeds max weekly slots " ++ toString max_weekly_slots]
      else []
    suggestions :=
      if over then
        ["Distribute classes to other available classrooms.",
         "Add new classrooms of the required type.",
         "Extend working hours or add time slots."]
      else []
    usage_hours := usage
    max_weekly_slots := max_weekly_slots }

/-- The full validation report (lines 382-387 and 449/491/511). -/
structure Validations where
  batches : List (String × BatchReport)
  faculty : List (String × FacultyReport)
  classrooms : List (String × ClassroomReport)
deriving DecidableEq, Repr

/-- `TimetableAPI.validate_generated_slots` (lines 347-519).  The faculty
loop skips users whose role is not `'faculty'` (lines 460-461). -/
def validate_generated_slots (cat : Catalog) (slots : List Slot) : Validations :=
  { batches := cat.batches.map (fun p => (p.1, validate_batch cat slots p.1))
    faculty := (cat.users.filter (fun p => p.2.role == "faculty")).map
      (fun p => (p.1, validate_faculty cat slots p.1))
    classrooms := cat.classrooms.map (fun p => (p.1, validate_classroom slots p.1)) }

/-! ## Generator invariants -/

/-- The three hard no-double-booking invariants between two slots: they do
not collide on (day, time, classroom), (day, time, faculty) or
(day, time, batch). -/
def slotsDisjoint (a b : Slot) : Prop :=
  ¬(a.day = b.day ∧ a.time = b.time ∧ a.classroom_id = b.classroom_id) ∧
  ¬(a.day = b.day ∧ a.time = b.time ∧ a.faculty_id = b.faculty_id) ∧
  ¬(a.day = b.day ∧ a.time = b.time ∧ a.batch_id = b.batch_id)

/-- The slot's faculty holds a Qualification row for the slot's subject in
the catalog's faculty-subject multimap. -/
def holdsQualification (cat : Catalog) (sl : Slot) : Prop :=
  ∃ p ∈ cat.faculty_subject_map, p.1 = sl.faculty_id ∧
    ∃ m ∈ p.2, m.subject_id = sl.subject_id

/-- The slot's classroom exists in the catalog and its room kind equals the
subject's required kind. -/
def roomKindMatches (cat : Catalog) (sl : Slot) : Prop :=
  ∃ p ∈ cat.classrooms, p.1 = sl.classroom_id ∧
    p.2.ctype = subject_required_type cat sl.subject_id

/-- Number of slots assigned to a given (faculty, subject) pair. -/
def countPair (slots : List Slot) (faculty_id subject_id : String) : Nat :=
  (slots.filter (fun sl => sl.faculty_id == faculty_id && sl.subject_id == subject_id)).length

/-- The generator's running invariant: hard invariants 1-5 on the emitted
slots, plus the bookkeeping facts that the `faculty_subject_hours` counter
dominates the true per-pair count and that the per-pair count respects the
Qualification quota. -/
def GenInv (cat : Catalog) (st : GenState) : Prop :=
  st.slots.Pairwise slotsDisjoint ∧
  (∀ sl ∈ st.slots, holdsQualification cat sl) ∧
  (∀ sl ∈ st.slots, roomKindMatches cat sl) ∧
  (∀ f s, countPair st.slots f s ≤ st.fsh (fskey f s)) ∧
  (∀ f s, countPair st.slots f s ≤ get_faculty_subject_max_hours cat f s)

lemma randChoice_mem {xs : List String} (r : Nat) (h : xs.isEmpty = false) :
    randChoice xs r ∈ xs := by
  have hne : xs ≠ [] := by
    cases xs with
    | nil => simp at h
    | cons a l => simp
  have hlen : 0 < xs.length := List.length_pos.mpr hne
  have hr : r % xs.length < xs.length := Nat.mod_lt _ hlen
  unfold randChoice
  rw [List.getD_eq_getElem xs "" hr]
  exact List.getElem_mem hr

/-- Case analysis of one placement attempt: either it fails leaving slots
and counters untouched, or it emits exactly one slot that passed all the
availability and quota guards against the current state. -/
lemma attempt_place_cases (cat : Catalog) (bid sid : String) (fac : List String)
    (st : GenState) :
    ((attempt_place cat bid sid fac st).2 = none ∧
      (attempt_place cat bid sid fac st).1.slots = st.slots ∧
      (attempt_place cat bid sid fac st).1.fsh = st.fsh) ∨
    (∃ sl,
      (attempt_place cat bid sid fac st).2 = some sl ∧
      (attempt_place cat bid sid fac st).1.slots = st.slots ++ [sl] ∧
      (attempt_place cat bid sid fac st).1.fsh =
        (fun k => if k == fskey sl.faculty_id sid then st.fsh k + 1 else st.fsh k) ∧
      sl.batch_id = bid ∧ sl.subject_id = sid ∧
      sl.faculty_id ∈ fac ∧
      _is_batch_available_local st.slots bid sl.day sl.time = true ∧
      _is_faculty_available_local st.slots sl.faculty_id sl.day sl.time = true ∧
      st.fsh (fskey sl.faculty_id sid) < get_faculty_subject_max_hours cat sl.faculty_id sid ∧
      sl.classroom_id ∈ _get_available_classrooms_local cat st.slots sl.day sl.time
        (subject_required_type cat sid)) := by
  simp only [attempt_place]
  split
  · left; exact ⟨rfl, rfl, rfl⟩
  next hbatch =>
    split
    · left; exact ⟨rfl, rfl, rfl⟩
    next hafe =>
      split
      · left; exact ⟨rfl, rfl, rfl⟩
      next hace =>
        right
        have hbatch' : _is_batch_available_local st.slots bid
            (randChoice days (nextRand st.rand).1)
            (randChoice time_slots (nextRand (nextRand st.rand).2).1) = true := by
          simpa using hbatch
        rw [Bool.not_eq_true] at hafe hace
        have hmem := randChoice_mem
          (nextRand (nextRand (nextRand st.rand).2).2).1 hafe
        rw [List.mem_filter, Bool.and_eq_true] at hmem
        refine ⟨_, rfl, rfl, rfl, rfl, rfl, ?_, ?_, ?_, ?_, ?_⟩
        · exact hmem.1
        · exact hbatch'
        · exact hmem.2.1
        · exact of_decide_eq_true hmem.2.2
        · exact randChoice_mem _ hace

lemma batch_avail_prop {slots : List Slot} {b d t : String}
    (h : _is_batch_available_local slots b d t = true) :
    ∀ sl ∈ slots, ¬(sl.batch_id = b ∧ sl.day = d ∧ sl.time = t) := by
  intro sl hsl
  rw [_is_batch_available_local, List.all_eq_true] at h
  have hx := h sl hsl
  simp only [Bool.not_eq_true', Bool.and_eq_false_iff, beq_eq_false_iff_ne, ne_eq] at hx
  tauto

lemma faculty_avail_prop {slots : List Slot} {f d t : String}
    (h : _is_faculty_available_local slots f d t = true) :
    ∀ sl ∈ slots, ¬(sl.faculty_id = f ∧ sl.day = d ∧ sl.time = t) := by
  intro sl hsl
  rw [_is_faculty_available_local, List.all_eq_true] at h
  have hx := h sl hsl
  simp only [Bool.not_eq_true', Bool.and_eq_false_iff, beq_eq_false_iff_ne, ne_eq] at hx
  tauto

lemma classroom_avail_prop {slots : List Slot} {c d t : String}
    (h : _is_classroom_available_local slots c d t = true) :
    ∀ sl ∈ slots, ¬(sl.classroom_id = c ∧ sl.day = d ∧ sl.time = t) := by
  intro sl hsl
  rw [_is_classroom_available_local, List.all_eq_true] at h
  have hx := h sl hsl
  simp only [Bool.not_eq_true', Bool.and_eq_false_iff, beq_eq_false_iff_ne, ne_eq] at hx
  tauto

lemma available_classrooms_spec {cat : Catalog} {slots : List Slot} {d t ty cid : String}
    (h : cid ∈ _get_available_classrooms_local cat slots d t ty) :
    (∃ p ∈ cat.classrooms, p.1 = cid ∧ p.2.ctype = ty) ∧
    _is_classroom_available_local slots cid d t = true := by
  rw [_get_available_classrooms_local, List.mem_map] at h
  obtain ⟨p, hp, hpe⟩ := h
  rw [List.mem_filter, Bool.and_eq_true] at hp
  exact ⟨⟨p, hp.1, hpe, eq_of_beq hp.2.1⟩, hpe ▸ hp.2.2⟩

lemma get_subject_faculty_spec {cat : Catalog} {sid fid : String}
    (h : fid ∈ get_subject_faculty cat sid) :
    ∃ p ∈ cat.faculty_subject_map, p.1 = fid ∧ ∃ m ∈ p.2, m.subject_id = sid := by
  rw [get_subject_faculty, List.mem_flatMap] at h
  obtain ⟨p, hp, hmem⟩ := h
  rw [List.mem_map] at hmem
  obtain ⟨m, hm, hme⟩ := hmem
  rw [List.mem_filter] at hm
  exact ⟨p, hp, hme, m, hm.1, eq_of_beq hm.2⟩

lemma countPair_append (l1 l2 : List Slot) (f s : String) :
    countPair (l1 ++ l2) f s = countPair l1 f s + countPair l2 f s := by
  simp [countPair, List.filter_append]

lemma countPair_single (sl : Slot) (f s : String) :
    countPair [sl] f s = if sl.faculty_id = f ∧ sl.subject_id = s then 1 else 0 := by
  by_cases h1 : sl.faculty_id = f <;> by_cases h2 : sl.subject_id = s <;>
    simp [countPair, h1, h2]

lemma attempt_place_preserves {cat : Catalog} {bid sid : String} {fac : List String}
    {st : GenState} (hfac : fac = get_subject_faculty cat sid)
    (hinv : GenInv cat st) : GenInv cat (attempt_place cat bid sid fac st).1 := by
  obtain ⟨i1, i2, i3, i4, i5⟩ := hinv
  rcases attempt_place_cases cat bid sid fac st with
    ⟨_, hs, hf⟩ | ⟨sl, _, hs, hf, hb, hsub, hfmem, hbav, hfav, hquota, hcmem⟩
  · exact ⟨hs ▸ i1, hs ▸ i2, hs ▸ i3, fun f s => hf ▸ hs ▸ i4 f s, fun f s => hs ▸ i5 f s⟩
  · obtain ⟨⟨pc, hpc, hpcid, hpcty⟩, hcav⟩ := available_classrooms_spec hcmem
    refine ⟨?_, ?_, ?_, ?_, ?_⟩
    · rw [hs, List.pairwise_append]
      refine ⟨i1, by simp, ?_⟩
      intro a ha b hbmem
      rw [List.mem_singleton] at hbmem
      subst hbmem
      refine ⟨?_, ?_, ?_⟩
      · intro ⟨hd, ht, hc⟩
        exact classroom_avail_prop hcav a ha ⟨hc, hd, ht⟩
      · intro ⟨hd, ht, hfid⟩
        exact faculty_avail_prop hfav a ha ⟨hfid, hd, ht⟩
      · intro ⟨hd, ht, hbid⟩
        exact batch_avail_prop hbav a ha ⟨hb ▸ hbid, hd, ht⟩
    · intro x hx
      rw [hs, List.mem_append] at hx
      rcases hx with hx | hx
      · exact i2 x hx
      · rw [List.mem_singleton] at hx
        subst hx
        obtain ⟨p, hp, hpid, m, hm, hms⟩ := get_subject_faculty_spec (hfac ▸ hfmem)
        exact ⟨p, hp, hpid, m, hm, hsub ▸ hms⟩
    · intro x hx
      rw [hs, List.mem_append] at hx
      rcases hx with hx | hx
      · exact i3 x hx
      · rw [List.mem_singleton] at hx
        subst hx
        exact ⟨pc, hpc, hpcid, by rw [hpcty, hsub]⟩
    · intro f s
      rw [hs, countPair_append, countPair_single, hf]
      by_cases hmatch : sl.faculty_id = f ∧ sl.subject_id = s
      · obtain ⟨hmf, hms⟩ := hmatch
        have hkey : fskey f s = fskey sl.faculty_id sid := by rw [← hmf, ← hms, hsub]
        have h1 := i4 f s
        rw [hkey] at h1
        rw [if_pos ⟨hmf, hms⟩]
        simp only [hkey, beq_self_eq_true, if_true]
        omega
      · rw [if_neg hmatch]
        have h1 := i4 f s
        have hle : st.fsh (fskey f s) ≤
            (if (fskey f s == fskey sl.faculty_id sid) = true
              then st.fsh (fskey f s) + 1 else st.fsh (fskey f s)) := by
          split <;> omega
        simp only []
        omega
    · intro f s
      rw [hs, countPair_append, countPair_single]
      by_cases hmatch : sl.faculty_id = f ∧ sl.subject_id = s
      · obtain ⟨hmf, hms⟩ := hmatch
        rw [if_pos ⟨hmf, hms⟩]
        have h1 := i4 f s
        have h2 : st.fsh (fskey f s) < get_faculty_subject_max_hours cat f s := by
          rw [← hmf, ← hms, hsub]
          exact hquota
        omega
      · rw [if_neg hmatch]
        have := i5 f s
        omega

lemma try_schedule_preserves {cat : Catalog} {bid sid : String} {fac : List String}
    (hfac : fac = get_subject_faculty cat sid) :
    ∀ (fuel : Nat) (st : GenState), GenInv cat st →
      GenInv cat (try_schedule cat bid sid fac fuel st) := by
  intro fuel
  induction fuel with
  | zero => intro st h; exact h
  | succ n ih =>
    intro st h
    rw [try_schedule]
    have hpre := @attempt_place_preserves cat bid sid fac st hfac h
    rcases hres : attempt_place cat bid sid fac st with ⟨st', r⟩
    rw [hres] at hpre
    cases r with
    | some sl => exact hpre
    | none => exact ih st' hpre

lemma try_schedule_slots (cat : Catalog) (bid sid : String) (fac : List String) :
    ∀ (fuel : Nat) (st : GenState), ∃ new,
      (try_schedule cat bid sid fac fuel st).slots = st.slots ++ new ∧
      new.length ≤ 1 ∧ ∀ sl ∈ new, sl.batch_id = bid ∧ sl.subject_id = sid := by
  intro fuel
  induction fuel with
  | zero => intro st; exact ⟨[], by simp [try_schedule], by simp, by simp⟩
  | succ n ih =>
    intro st
    rw [try_schedule]
    rcases hres : attempt_place cat bid sid fac st with ⟨st', r⟩
    rcases attempt_place_cases cat bid sid fac st with
      ⟨h2, hs, _⟩ | ⟨sl, h2, hs, _, hb, hsub, _⟩ <;> rw [hres] at h2 hs
    · simp only at h2
      subst h2
      obtain ⟨new, hn1, hn2, hn3⟩ := ih st'
      exact ⟨new, by rw [hn1, hs], hn2, hn3⟩
    · simp only at h2
      subst h2
      refine ⟨[sl], by simpa using hs, by simp, ?_⟩
      intro x hx
      rw [List.mem_singleton] at hx
      subst hx
      exact ⟨hb, hsub⟩

lemma schedule_task_preserves {cat : Catalog} {bid : String} {st : GenState} {sid : String}
    (hinv : GenInv cat st) : GenInv cat (schedule_task cat bid st sid) := by
  simp only [schedule_task]
  split
  · exact hinv
  · exact try_schedule_preserves rfl max_attempts st hinv

lemma schedule_task_slots (cat : Catalog) (bid : String) (st : GenState) (sid : String) :
    ∃ new, (schedule_task cat bid st sid).slots = st.slots ++ new ∧
      new.length ≤ 1 ∧ ∀ sl ∈ new, sl.batch_id = bid ∧ sl.subject_id = sid := by
  simp only [schedule_task]
  split
  · exact ⟨[], by simp, by simp, by simp⟩
  · exact try_schedule_slots cat bid sid _ max_attempts st

lemma foldl_schedule_task_preserves {cat : Catalog} {bid : String} :
    ∀ (tasks : List String) (st : GenState), GenInv cat st →
      GenInv cat (tasks.foldl (schedule_task cat bid) st) := by
  intro tasks
  induction tasks with
  | nil => intro st h; exact h
  | cons t ts ih => intro st h; exact ih _ (schedule_task_preserves h)

lemma foldl_schedule_task_slots (cat : Catalog) (bid : String) :
    ∀ (tasks : List String) (st : GenState), ∃ new,
      (tasks.foldl (schedule_task cat bid) st).slots = st.slots ++ new ∧
      new.length ≤ tasks.length ∧
      (∀ sl ∈ new, sl.batch_id = bid) ∧
      (∀ s, (new.filter (fun sl => sl.subject_id == s)).length ≤ tasks.count s) := by
  intro tasks
  induction tasks with
  | nil => intro st; exact ⟨[], by simp, by simp, by simp, by simp⟩
  | cons t ts ih =>
    intro st
    obtain ⟨n1, h11, h12, h13⟩ := schedule_task_slots cat bid st t
    obtain ⟨n2, h21, h22, h23, h24⟩ := ih (schedule_task cat bid st t)
    refine ⟨n1 ++ n2, ?_, ?_, ?_, ?_⟩
    · rw [List.foldl_cons, h21, h11, List.append_assoc]
    · rw [List.length_append, List.length_cons]; omega
    · intro sl hsl
      rcases List.mem_append.mp hsl with h | h
      · exact (h13 sl h).1
      · exact h23 sl h
    · intro s
      rw [List.filter_append, List.length_append]
      have hc : (n1.filter (fun sl => sl.subject_id == s)).length ≤
          (if (t == s) = true then 1 else 0) := by
        cases n1 with
        | nil => simp
        | cons x rest =>
          cases rest with
          | cons y r2 => simp at h12
          | nil =>
            have hx := (h13 x (List.mem_singleton_self x)).2
            by_cases hts : (x.subject_id == s) = true
            · have ht : (t == s) = true := by
                rw [← hx]
                exact hts
              simp [List.filter_cons, hts, ht]
            · simp [List.filter_cons, hts]
      rw [List.count_cons]
      have h24s := h24 s
      by_cases ht : (t == s) = true
      · rw [if_pos ht] at hc ⊢
        omega
      · rw [if_neg ht] at hc ⊢
        omega

lemma schedule_batch_preserves {cat : Catalog} {shuffle : List String → List String}
    {st : GenState} {entry : String × Batch}
    (hinv : GenInv cat st) : GenInv cat (schedule_batch cat shuffle st entry) := by
  simp only [schedule_batch]
  split
  · exact hinv
  · exact foldl_schedule_task_preserves _ _ hinv

lemma schedule_batch_slots (cat : Catalog) (shuffle : List String → List String)
    (st : GenState) (entry : String × Batch) : ∃ new,
      (schedule_batch cat shuffle st entry).slots = st.slots ++ new ∧
      new.length ≤ (shuffle (flatTasks cat entry.1)).length ∧
      (∀ sl ∈ new, sl.batch_id = entry.1) ∧
      (∀ s, (new.filter (fun sl => sl.subject_id == s)).length ≤
        (shuffle (flatTasks cat entry.1)).count s) := by
  simp only [schedule_batch]
  split
  · exact ⟨[], by simp, by simp, by simp, by simp⟩
  · exact foldl_schedule_task_slots cat entry.1 _ st

lemma count_flat_aux (cat : Catalog) (s : String) :
    ∀ l : List String,
      (l.flatMap (fun sid => List.replicate (subject_weekly_hours cat sid) sid)).count s
        = l.count s * subject_weekly_hours cat s := by
  intro l
  induction l with
  | nil => simp
  | cons t ts ih =>
    rw [List.flatMap_cons, List.count_append, ih, List.count_cons, List.count_replicate]
    by_cases ht : (t == s) = true
    · have hts : t = s := eq_of_beq ht
      subst hts
      rw [if_pos ht, if_pos ht, Nat.add_mul, one_mul]
      omega
    · rw [if_neg ht, if_neg ht]
      simp

lemma get_subjects_for_batch_count (cat : Catalog)
    (hnd : (cat.subjects.map Prod.fst).Nodup) (bid s : String) :
    (get_subjects_for_batch cat bid).count s ≤ 1 := by
  rw [get_subjects_for_batch]
  split
  · simp
  next b heq =>
    have hsub : List.Sublist
        ((cat.subjects.filter (fun p => p.2.department == b.department)).map Prod.fst)
        (cat.subjects.map Prod.fst) :=
      List.Sublist.map _ (List.filter_sublist _)
    exact List.nodup_iff_count_le_one.mp (hnd.sublist hsub) s

lemma batch_subject_hours_append (l1 l2 : List Slot) (b s : String) :
    batch_subject_hours (l1 ++ l2) b s =
      batch_subject_hours l1 b s + batch_subject_hours l2 b s := by
  simp [batch_subject_hours, List.filter_append]

lemma length_filter_and_le (new : List Slot) (p q : Slot → Bool) :
    (new.filter (fun sl => p sl && q sl)).length ≤ (new.filter q).length := by
  induction new with
  | nil => simp
  | cons x xs ih =>
    by_cases hp : p x <;> by_cases hq : q x <;>
      simp [List.filter_cons, hp, hq] <;> omega

lemma bsh_zero_of_all_ne (new : List Slot) (b s : String)
    (hb : ∀ sl ∈ new, sl.batch_id ≠ b) : batch_subject_hours new b s = 0 := by
  rw [batch_subject_hours, List.length_eq_zero, List.filter_eq_nil_iff]
  intro sl hsl
  simp [hb sl hsl]

lemma foldl_schedule_batch_preserves {cat : Catalog} {shuffle : List String → List String} :
    ∀ (bl : List (String × Batch)) (st : GenState), GenInv cat st →
      GenInv cat (bl.foldl (schedule_batch cat shuffle) st) := by
  intro bl
  induction bl with
  | nil => intro st h; exact h
  | cons p ps ih => intro st h; exact ih _ (schedule_batch_preserves h)

lemma foldl_schedule_batch_slots (cat : Catalog) (shuffle : List String → List String)
    (hperm : ∀ l, List.Perm (shuffle l) l)
    (hnds : (cat.subjects.map Prod.fst).Nodup) :
    ∀ (bl : List (String × Batch)) (st : GenState), ∃ new,
      (bl.foldl (schedule_batch cat shuffle) st).slots = st.slots ++ new ∧
      (∀ sl ∈ new, ∃ p ∈ bl, sl.batch_id = p.1) ∧
      (∀ b s, batch_subject_hours new b s ≤
        ((bl.map Prod.fst).count b) * subject_weekly_hours cat s) := by
  intro bl
  induction bl with
  | nil => intro st; exact ⟨[], by simp, by simp, by simp [batch_subject_hours]⟩
  | cons p ps ih =>
    intro st
    obtain ⟨n1, h11, h12, h13, h14⟩ := schedule_batch_slots cat shuffle st p
    obtain ⟨n2, h21, h22, h23⟩ := ih (schedule_batch cat shuffle st p)
    refine ⟨n1 ++ n2, ?_, ?_, ?_⟩
    · rw [List.foldl_cons, h21, h11, List.append_assoc]
    · intro sl hsl
      rcases List.mem_append.mp hsl with h | h
      · exact ⟨p, by simp, h13 sl h⟩
      · obtain ⟨q, hq, he⟩ := h22 sl h
        exact ⟨q, by simp [hq], he⟩
    · intro b s
      rw [batch_subject_hours_append]
      have hn2 := h23 b s
      have hn1 : batch_subject_hours n1 b s ≤
          (if (p.1 == b) = true then 1 else 0) * subject_weekly_hours cat s := by
        by_cases hb : p.1 = b
        · subst hb
          have c1 : batch_subject_hours n1 p.1 s ≤
              (n1.filter (fun sl => sl.subject_id == s)).length := by
            rw [batch_subject_hours]
            exact length_filter_and_le n1 (fun sl => sl.batch_id == p.1)
              (fun sl => sl.subject_id == s)
          have c2 := h14 s
          have c3 : (shuffle (flatTasks cat p.1)).count s = (flatTasks cat p.1).count s :=
            (hperm _).count_eq s
          have c4 : (flatTasks cat p.1).count s =
              (get_subjects_for_batch cat p.1).count s * subject_weekly_hours cat s :=
            count_flat_aux cat s _
          have c5 : (get_subjects_for_batch cat p.1).count s ≤ 1 :=
            get_subjects_for_batch_count cat hnds p.1 s
          have c6 : (get_subjects_for_batch cat p.1).count s * subject_weekly_hours cat s ≤
              1 * subject_weekly_hours cat s := Nat.mul_le_mul_right _ c5
          rw [if_pos (beq_self_eq_true p.1)]
          omega
        · have hz : batch_subject_hours n1 b s = 0 :=
            bsh_zero_of_all_ne n1 b s (fun sl hsl => (h13 sl hsl) ▸ hb)
          rw [hz]
          exact Nat.zero_le _
      rw [List.map_cons, List.count_cons]
      by_cases hpb : (p.1 == b) = true
      · rw [if_pos hpb] at hn1 ⊢
        rw [Nat.add_mul, one_mul]
        omega
      · rw [if_neg hpb] at hn1 ⊢
        rw [Nat.add_mul]
        omega

/-- The generator's final internal state satisfies the running invariant. -/
lemma generate_state_inv (cat : Catalog) (shuffle : List String → List String)
    (rand : List Nat) :
    GenInv cat (cat.batches.foldl (schedule_batch cat shuffle)
      { slots := [], fsh := fun _ => 0, rand := rand }) := by
  apply foldl_schedule_batch_preserves
  refine ⟨by simp, by simp, by simp, ?_, ?_⟩ <;> intro f s <;> simp [countPair]

/-! ## Concrete scenario catalog (spec §8): one batch of department
"Mechanical" with a single 4-hour subject, one qualified faculty member
with `max_hours_per_week = 8`, and one classroom of the matching kind. -/

def mechBatch : Batch :=
  { id := "b1", name := "Mech A", size := 60, department := "Mechanical" }

def thermoSubject : Subject :=
  { id := "s1", name := "Thermodynamics", credits := 4, weekly_hours := 4,
    department := "Mechanical" }

def profUser : User := { id := "f1", name := "Prof", role := "faculty" }

def mechMapping : Mapping :=
  { faculty_id := "f1", subject_id := "s1", max_hours_per_week := 8,
    avg_leaves_per_month := 2 }

def lectureRoom : Classroom :=
  { id := "c1", name := "Room 101", capacity := 70, ctype := "lecture" }

def scenarioCatalog : Catalog :=
  { users := [("f1", profUser)]
    classrooms := [("c1", lectureRoom)]
    subjects := [("s1", thermoSubject)]
    faculty_subject_map := [("f1", [mechMapping])]
    batches := [("b1", mechBatch)] }

/-! ## Claim theorems: generator invariants -/

/-- C2: for every catalog and every sequence of random choices (shuffle
function and random stream), the slot set returned by the generator is
pairwise free of double bookings: no two distinct slots share
(day, time, classroom), (day, time, faculty) or (day, time, batch). -/
theorem generated_slots_no_double_booking (cat : Catalog)
    (shuffle : List String → List String) (rand : List Nat) :
    (generate_in_memory_timetable cat shuffle rand).Pairwise slotsDisjoint :=
  (generate_state_inv cat shuffle rand).1

/-- C3: for every catalog and every sequence of random choices, the number
of generated slots assigned to any (faculty, subject) pair never exceeds
that pair's `max_hours_per_week` as read from the qualification map. -/
theorem generated_slots_respect_pair_quota (cat : Catalog)
    (shuffle : List String → List String) (rand : List Nat) (f s : String) :
    countPair (generate_in_memory_timetable cat shuffle rand) f s ≤
      get_faculty_subject_max_hours cat f s :=
  (generate_state_inv cat shuffle rand).2.2.2.2 f s

/-- C6: for every catalog and every sequence of random choices, every
generated slot's faculty holds a Qualification entry for the slot's
subject in the faculty-subject qualification map. -/
theorem generated_slots_faculty_qualified (cat : Catalog)
    (shuffle : List String → List String) (rand : List Nat) :
    ∀ sl ∈ generate_in_memory_timetable cat shuffle rand, holdsQualification cat sl :=
  (generate_state_inv cat shuffle rand).2.1

/-- C7: for every catalog and every sequence of random choices, every
generated slot is placed in a classroom whose room kind equals the
subject's required kind — `"lab"` exactly when the subject's name contains
the substring "lab" case-insensitively, `"lecture"` otherwise (this is the
`subject_required_type` computation of the source). -/
theorem generated_slots_room_kind_matches (cat : Catalog)
    (shuffle : List String → List String) (rand : List Nat) :
    ∀ sl ∈ generate_in_memory_timetable cat shuffle rand, roomKindMatches cat sl :=
  (generate_state_inv cat shuffle rand).2.2.1

/-- C10: for every catalog, every shuffle that is a permutation (as
`random.shuffle` is) and every random stream, the generator never
over-schedules: each (batch, subject) pair receives at most the subject's
required weekly hours, so the validator's surplus branch
(`scheduled > required`) can never fire on a freshly generated slot set.
The `Nodup` hypotheses state that the batch and subject dict keys are
unique, which holds for every actual Python dict. -/
theorem generated_slots_never_overschedule (cat : Catalog)
    (shuffle : List String → List String) (rand : List Nat)
    (hperm : ∀ l, List.Perm (shuffle l) l)
    (hndb : (cat.batches.map Prod.fst).Nodup)
    (hnds : (cat.subjects.map Prod.fst).Nodup) :
    (∀ b s, batch_subject_hours (generate_in_memory_timetable cat shuffle rand) b s ≤
      subject_weekly_hours cat s) ∧
    (∀ p ∈ cat.batches, ∀ s ∈ get_subjects_for_batch cat p.1,
      ¬(subject_weekly_hours cat s <
        batch_subject_hours (generate_in_memory_timetable cat shuffle rand) p.1 s)) := by
  have hmain : ∀ b s,
      batch_subject_hours (generate_in_memory_timetable cat shuffle rand) b s ≤
        subject_weekly_hours cat s := by
    intro b s
    obtain ⟨new, h1, h2, h3⟩ := foldl_schedule_batch_slots cat shuffle hperm hnds cat.batches
      { slots := [], fsh := fun _ => 0, rand := rand }
    have hg : generate_in_memory_timetable cat shuffle rand = new := by
      rw [generate_in_memory_timetable, h1]
      simp
    rw [hg]
    have hcount : (cat.batches.map Prod.fst).count b ≤ 1 :=
      List.nodup_iff_count_le_one.mp hndb b
    have := h3 b s
    have hb : (cat.batches.map Prod.fst).count b * subject_weekly_hours cat s ≤
        1 * subject_weekly_hours cat s := Nat.mul_le_mul_right _ hcount
    omega
  exact ⟨hmain, fun p _ s _ => Nat.not_lt.mpr (hmain p.1 s)⟩

/-- Witness for C10 at the concrete scenario catalog with the identity
shuffle and an empty random stream. -/
theorem generated_slots_never_overschedule_witness :
    ((scenarioCatalog.batches.map Prod.fst).Nodup ∧
      (scenarioCatalog.subjects.map Prod.fst).Nodup) ∧
    batch_subject_hours
        (generate_in_memory_timetable scenarioCatalog (fun l => l) []) "b1" "s1" ≤
      subject_weekly_hours scenarioCatalog "s1" :=
  ⟨⟨by decide, by decide⟩,
    (generated_slots_never_overschedule scenarioCatalog (fun l => l) []
      (fun l => List.Perm.refl l) (by decide) (by decide)).1 "b1" "s1"⟩

/-! ## Claim theorem: validator determinism -/

/-- C8: the validator is a pure function of the catalog and the slot set —
running it twice on equal inputs yields identical reports (statuses, error
strings, suggestion strings and numeric counters for every batch, faculty
member and classroom). -/
theorem validator_deterministic (cat1 cat2 : Catalog) (s1 s2 : List Slot)
    (hc : cat1 = cat2) (hs : s1 = s2) :
    validate_generated_slots cat1 s1 = validate_generated_slots cat2 s2 := by
  rw [hc, hs]

/-- Witness for C8 at a concrete catalog and slot list. -/
theorem validator_deterministic_witness :
    scenarioCatalog = scenarioCatalog ∧ ([] : List Slot) = [] ∧
    validate_generated_slots scenarioCatalog [] =
      validate_generated_slots scenarioCatalog [] :=
  ⟨rfl, rfl, validator_deterministic scenarioCatalog scenarioCatalog [] [] rfl rfl⟩

/-! ## Claim C1: failure behaviour of the catalog load -/

/-- All five bulk reads completing with HTTP status 500 (a failed read that
does not raise). -/
def allFailedReads : StoreReads :=
  { users := .resp 500 [], classrooms := .resp 500 [], subjects := .resp 500 [],
    faculty_subject_map := .resp 500 [], batches := .resp 500 [] }

/-- C1 counterexample: every one of the five catalog bulk reads fails with
a non-success HTTP status, yet `fetch_data` still reports success — so it
is not the case that any failing read yields the explicit fetch-error
result. -/
theorem fetch_data_success_despite_failed_reads :
    (fetch_data initialCatalog allFailedReads).1 = true := by decide

/-- C1 amended: `fetch_data` returns the explicit failure result exactly
when one of the five bulk reads raises a network exception, and in that
case the generator aborts with the empty slot list; a read that completes
with a non-success HTTP status is silently skipped (its section left
unloaded) while `fetch_data` still reports success. -/
theorem fetch_data_failure_iff_exception (cat : Catalog) (reads : StoreReads)
    (shuffle : List String → List String) (rand : List Nat) :
    ((fetch_data cat reads).1 = false ↔ hasExcRead reads = true) ∧
    (hasExcRead reads = true → generate_with_fetch cat reads shuffle rand = []) := by
  obtain ⟨u, c, s, f, b⟩ := reads
  constructor
  · cases u <;> cases c <;> cases s <;> cases f <;> cases b <;>
      simp [fetch_data, hasExcRead]
  · intro hexc
    cases u <;> cases c <;> cases s <;> cases f <;> cases b <;>
      simp [fetch_data, hasExcRead, generate_with_fetch] at hexc ⊢

/-- One read raising an exception, used to instantiate the C1 amended
theorem at a concrete input. -/
def excReads : StoreReads :=
  { users := .exc, classrooms := .resp 200 [], subjects := .resp 200 [],
    faculty_subject_map := .resp 200 [], batches := .resp 200 [] }

/-- Witness for C1 amended: with the users read raising, the generator
aborts with the empty slot list. -/
theorem fetch_data_failure_iff_exception_witness :
    hasExcRead excReads = true ∧
    generate_with_fetch initialCatalog excReads (fun l => l) [] = [] :=
  ⟨by decide,
    (fetch_data_failure_iff_exception initialCatalog excReads (fun l => l) []).2 (by decide)⟩

/-! ## Claim C5: dictionary-merge semantics of repeated catalog loads -/

lemma dictLookup_cons (p : String × α) (d : List (String × α)) (k : String) :
    dictLookup (p :: d) k = if (p.1 == k) = true then some p.2 else dictLookup d k := by
  by_cases h : (p.1 == k) = true
  · simp [dictLookup, List.find?, h]
  · simp only [Bool.not_eq_true] at h
    simp [dictLookup, List.find?, h]

lemma dictLookup_append (d1 d2 : List (String × α)) (k : String) :
    dictLookup (d1 ++ d2) k =
      match dictLookup d1 k with
      | some v => some v
      | none => dictLookup d2 k := by
  rw [dictLookup, dictLookup, dictLookup, List.find?_append]
  cases List.find? (fun p => p.1 == k) d1 <;> simp [Option.or]

lemma dictLookup_insert (d : List (String × α)) (k k' : String) (v : α) :
    dictLookup (dictInsert d k v) k' = if k' = k then some v else dictLookup d k' := by
  induction d with
  | nil =>
    rw [dictInsert]
    by_cases h : k' = k
    · subst h
      simp [dictLookup_cons]
    · rw [if_neg h, dictLookup_cons]
      have hne : ¬(((k, v).1 == k') = true) := by
        simp only [beq_iff_eq]
        exact fun he => h he.symm
      rw [if_neg hne]
  | cons p rest ih =>
    rw [dictInsert]
    by_cases hp : (p.1 == k) = true
    · rw [if_pos hp]
      have hpk : p.1 = k := eq_of_beq hp
      by_cases h : k' = k
      · subst h
        simp [dictLookup_cons]
      · have hne1 : ¬(((k, v).1 == k') = true) := by
          simp only [beq_iff_eq]
          exact fun he => h he.symm
        have hne2 : ¬((p.1 == k') = true) := by
          rw [hpk]
          simp only [beq_iff_eq]
          exact fun he => h he.symm
        rw [dictLookup_cons, if_neg hne1, if_neg h, dictLookup_cons, if_neg hne2]
    · rw [if_neg hp, dictLookup_cons, dictLookup_cons, ih]
      by_cases hq : (p.1 == k') = true
      · have hne : ¬ k' = k := by
          intro he
          subst he
          exact hp hq
        rw [if_pos hq, if_pos hq, if_neg hne]
      · rw [if_neg hq, if_neg hq]

lemma dictInsert_fresh (d : List (String × α)) (k : String) (v : α)
    (h : dictLookup d k = none) : dictInsert d k v = d ++ [(k, v)] := by
  induction d with
  | nil => rfl
  | cons p rest ih =>
    rw [dictLookup_cons] at h
    by_cases hp : (p.1 == k) = true
    · rw [if_pos hp] at h
      exact absurd h (by simp)
    · rw [if_neg hp] at h
      rw [dictInsert, if_neg hp, ih h]
      rfl

lemma foldl_insert_keep_fresh (key : α → String) (keep : α → Bool) :
    ∀ (l : List α) (d : List (String × α)),
      (∀ a ∈ l, keep a = true → dictLookup d (key a) = none) →
      ((l.filter keep).map key).Nodup →
      l.foldl (fun d a => if keep a = true then dictInsert d (key a) a else d) d =
        d ++ (l.filter keep).map (fun a => (key a, a)) := by
  intro l
  induction l with
  | nil => intro d _ _; simp
  | cons x xs ih =>
    intro d hfresh hnd
    rw [List.foldl_cons]
    by_cases hk : keep x = true
    · rw [if_pos hk, dictInsert_fresh d (key x) x (hfresh x (by simp) hk)]
      rw [List.filter_cons_of_pos hk, List.map_cons] at hnd
      rw [List.filter_cons_of_pos hk, List.map_cons]
      have hnotin := (List.nodup_cons.mp hnd).1
      have hndtl := (List.nodup_cons.mp hnd).2
      have hfresh2 : ∀ a ∈ xs, keep a = true →
          dictLookup (d ++ [(key x, x)]) (key a) = none := by
        intro a ha hka
        rw [dictLookup_append, hfresh a (by simp [ha]) hka]
        rw [dictLookup_cons]
        have hne : ¬(((key x, x).1 == key a) = true) := by
          simp only [beq_iff_eq]
          intro he
          exact hnotin (he ▸ List.mem_map_of_mem key (List.mem_filter.mpr ⟨ha, hka⟩))
        rw [if_neg hne]
        rfl
      rw [ih (d ++ [(key x, x)]) hfresh2 hndtl, List.append_assoc]
      rfl
    · rw [if_neg hk]
      rw [List.filter_cons_of_neg hk] at hnd ⊢
      exact ih d (fun a ha hka => hfresh a (by simp [ha]) hka) hnd

lemma foldl_insert_fresh (key : α → String) :
    ∀ (l : List α) (d : List (String × α)),
      (∀ a ∈ l, dictLookup d (key a) = none) →
      (l.map key).Nodup →
      l.foldl (fun d a => dictInsert d (key a) a) d =
        d ++ l.map (fun a => (key a, a)) := by
  intro l
  induction l with
  | nil => intro d _ _; simp
  | cons x xs ih =>
    intro d hfresh hnd
    rw [List.foldl_cons, dictInsert_fresh d (key x) x (hfresh x (by simp))]
    rw [List.map_cons] at hnd
    have hnotin := (List.nodup_cons.mp hnd).1
    have hndtl := (List.nodup_cons.mp hnd).2
    have hfresh2 : ∀ a ∈ xs, dictLookup (d ++ [(key x, x)]) (key a) = none := by
      intro a ha
      rw [dictLookup_append, hfresh a (by simp [ha])]
      rw [dictLookup_cons]
      have hne : ¬(((key x, x).1 == key a) = true) := by
        simp only [beq_iff_eq]
        intro he
        exact hnotin (he ▸ List.mem_map_of_mem key ha)
      rw [if_neg hne]
      rfl
    rw [List.map_cons, ih (d ++ [(key x, x)]) hfresh2 hndtl, List.append_assoc]
    rfl

lemma insertMapping_lookup (d : List (String × List Mapping)) (m : Mapping) (fid : String) :
    dictLookup (insertMapping d m) fid =
      if fid = m.faculty_id then some ((dictLookup d m.faculty_id).getD [] ++ [m])
      else dictLookup d fid := by
  rw [insertMapping]
  cases hl : dictLookup d m.faculty_id with
  | none =>
    by_cases he : fid = m.faculty_id
    · subst he
      rw [if_pos rfl, dictLookup_append, hl]
      simp [dictLookup_cons]
    · rw [if_neg he, dictLookup_append]
      cases hld : dictLookup d fid with
      | some v => simp
      | none =>
        have hne : ¬(((m.faculty_id, [m]).1 == fid) = true) := by
          simp only [beq_iff_eq]
          exact fun h2 => he h2.symm
        simp [dictLookup_cons, hne, dictLookup]
  | some maps =>
    rw [dictLookup_insert]
    by_cases he : fid = m.faculty_id
    · subst he
      rw [if_pos rfl, if_pos rfl]
      rfl
    · rw [if_neg he, if_neg he]

lemma foldl_insertMapping_lookup :
    ∀ (ms : List Mapping) (d : List (String × List Mapping)) (fid : String),
      dictLookup (ms.foldl insertMapping d) fid =
        match dictLookup d fid with
        | some l => some (l ++ ms.filter (fun m => m.faculty_id == fid))
        | none =>
          if (ms.filter (fun m => m.faculty_id == fid)).isEmpty = true then none
          else some (ms.filter (fun m => m.faculty_id == fid)) := by
  intro ms
  induction ms with
  | nil =>
    intro d fid
    cases h : dictLookup d fid <;> simp [h]
  | cons m rest ih =>
    intro d fid
    rw [List.foldl_cons, ih, insertMapping_lookup]
    by_cases he : fid = m.faculty_id
    · have hfl : List.filter (fun x : Mapping => x.faculty_id == fid) (m :: rest) =
          m :: List.filter (fun x : Mapping => x.faculty_id == fid) rest := by
        rw [List.filter_cons]
        simp [he]
      rw [hfl, if_pos he, ← he]
      cases hl : dictLookup d fid with
      | some l =>
        simp only [hl, Option.getD_some]
        rw [List.append_assoc]
        rfl
      | none =>
        simp only [hl, Option.getD_none, List.nil_append]
        simp
    · have hfl : List.filter (fun x : Mapping => x.faculty_id == fid) (m :: rest) =
          List.filter (fun x : Mapping => x.faculty_id == fid) rest := by
        rw [List.filter_cons]
        have : ¬((m.faculty_id == fid) = true) := by
          simp only [beq_iff_eq]
          exact fun h2 => he h2.symm
        simp [this]
      rw [hfl, if_neg he]

/-- The five bulk reads all succeeding with the given bodies. -/
def allOkReads (us : List User) (cs : List Classroom) (ss : List Subject)
    (ms : List Mapping) (bs : List Batch) : StoreReads :=
  { users := .resp 200 us, classrooms := .resp 200 cs, subjects := .resp 200 ss,
    faculty_subject_map := .resp 200 ms, batches := .resp 200 bs }

lemma fetch_data_all_ok (cat : Catalog) (us : List User) (cs : List Classroom)
    (ss : List Subject) (ms : List Mapping) (bs : List Batch) :
    fetch_data cat (allOkReads us cs ss ms bs) =
      (true, mergeBatches (mergeMappings (mergeSubjects (mergeClassrooms
        (mergeUsers cat us) cs) ss) ms) bs) := rfl

/-- A faculty user that has been removed from the store but is still in the
in-memory catalog of the long-lived `TimetableAPI` instance. -/
def staleUser : User := { id := "u9", name := "Ghost", role := "faculty" }

/-- An in-memory catalog left over from a previous load cycle: one faculty
user and one qualification row already present. -/
def staleCatalog : Catalog :=
  { users := [("u9", staleUser)], classrooms := [], subjects := [],
    faculty_subject_map := [("f1", [mechMapping])], batches := [] }

/-- The store's current contents: the user `u9` no longer exists; the
qualification row for `f1` is unchanged. -/
def cycleReads : StoreReads :=
  allOkReads [] [] [] [mechMapping] []

/-- C5 counterexample: a load on the shared instance reports success, yet
the user removed from the store survives in the in-memory map and the
qualification list now contains the same row twice — the catalog does not
equal the store contents, entities removed do survive, and repeated loads
do duplicate qualification-list entries. -/
theorem fetch_data_stale_and_duplicated :
    (fetch_data staleCatalog cycleReads).1 = true ∧
    (fetch_data staleCatalog cycleReads).2.users = [("u9", staleUser)] ∧
    dictLookup (fetch_data staleCatalog cycleReads).2.faculty_subject_map "f1" =
      some [mechMapping, mechMapping] := by decide

/-- C5 amended: `fetch_data` merges into the long-lived in-memory maps
rather than replacing them.  Loading into the empty catalog of a fresh
instance with all reads succeeding yields exactly the store's records
(users filtered to faculty role, qualification rows grouped by faculty id
in order), but running the same load a second time on the resulting state
appends every qualification row again, duplicating each faculty's list;
entities already in memory but absent from the store are never removed
(see the counterexample).  The `Nodup` hypotheses say the store ids are
unique, as the database primary keys guarantee. -/
theorem fetch_data_merge_semantics (us : List User) (cs : List Classroom)
    (ss : List Subject) (ms : List Mapping) (bs : List Batch)
    (hu : ((us.filter (fun u => u.role == "faculty")).map User.id).Nodup)
    (hc : (cs.map Classroom.id).Nodup)
    (hs : (ss.map Subject.id).Nodup)
    (hb : (bs.map Batch.id).Nodup) :
    (fetch_data initialCatalog (allOkReads us cs ss ms bs)).1 = true ∧
    (fetch_data initialCatalog (allOkReads us cs ss ms bs)).2.users =
      (us.filter (fun u => u.role == "faculty")).map (fun u => (u.id, u)) ∧
    (fetch_data initialCatalog (allOkReads us cs ss ms bs)).2.classrooms =
      cs.map (fun c => (c.id, c)) ∧
    (fetch_data initialCatalog (allOkReads us cs ss ms bs)).2.subjects =
      ss.map (fun s => (s.id, s)) ∧
    (fetch_data initialCatalog (allOkReads us cs ss ms bs)).2.batches =
      bs.map (fun b => (b.id, b)) ∧
    (∀ fid,
      dictLookup (fetch_data initialCatalog (allOkReads us cs ss ms bs)).2.faculty_subject_map
          fid =
        (if (ms.filter (fun m => m.faculty_id == fid)).isEmpty = true then none
         else some (ms.filter (fun m => m.faculty_id == fid)))) ∧
    (∀ fid, ¬(ms.filter (fun m => m.faculty_id == fid)).isEmpty = true →
      dictLookup
          (fetch_data (fetch_data initialCatalog (allOkReads us cs ss ms bs)).2
            (allOkReads us cs ss ms bs)).2.faculty_subject_map fid =
        some (ms.filter (fun m => m.faculty_id == fid) ++
          ms.filter (fun m => m.faculty_id == fid))) := by
  have hstate : (fetch_data initialCatalog (allOkReads us cs ss ms bs)).2 =
      mergeBatches (mergeMappings (mergeSubjects (mergeClassrooms
        (mergeUsers initialCatalog us) cs) ss) ms) bs := by
    rw [fetch_data_all_ok]
  have husers : (fetch_data initialCatalog (allOkReads us cs ss ms bs)).2.users =
      (us.filter (fun u => u.role == "faculty")).map (fun u => (u.id, u)) := by
    rw [hstate]
    simp only [mergeBatches, mergeMappings, mergeSubjects, mergeClassrooms, mergeUsers]
    have := foldl_insert_keep_fresh User.id (fun u => u.role == "faculty") us []
      (fun a _ _ => rfl) hu
    simpa using this
  have hclass : (fetch_data initialCatalog (allOkReads us cs ss ms bs)).2.classrooms =
      cs.map (fun c => (c.id, c)) := by
    rw [hstate]
    simp only [mergeBatches, mergeMappings, mergeSubjects, mergeClassrooms, mergeUsers]
    have := foldl_insert_fresh Classroom.id cs [] (fun a _ => rfl) hc
    simpa using this
  have hsubj : (fetch_data initialCatalog (allOkReads us cs ss ms bs)).2.subjects =
      ss.map (fun s => (s.id, s)) := by
    rw [hstate]
    simp only [mergeBatches, mergeMappings, mergeSubjects, mergeClassrooms, mergeUsers]
    have := foldl_insert_fresh Subject.id ss [] (fun a _ => rfl) hs
    simpa using this
  have hbat : (fetch_data initialCatalog (allOkReads us cs ss ms bs)).2.batches =
      bs.map (fun b => (b.id, b)) := by
    rw [hstate]
    simp only [mergeBatches, mergeMappings, mergeSubjects, mergeClassrooms, mergeUsers]
    have := foldl_insert_fresh Batch.id bs [] (fun a _ => rfl) hb
    simpa using this
  have hfsm : (fetch_data initialCatalog (allOkReads us cs ss ms bs)).2.faculty_subject_map =
      ms.foldl insertMapping [] := by
    rw [hstate]
    simp only [mergeBatches, mergeMappings, mergeSubjects, mergeClassrooms, mergeUsers,
      initialCatalog]
  have hlook : ∀ fid,
      dictLookup (fetch_data initialCatalog (allOkReads us cs ss ms bs)).2.faculty_subject_map
          fid =
        (if (ms.filter (fun m => m.faculty_id == fid)).isEmpty = true then none
         else some (ms.filter (fun m => m.faculty_id == fid))) := by
    intro fid
    rw [hfsm, foldl_insertMapping_lookup]
    rfl
  refine ⟨rfl, husers, hclass, hsubj, hbat, hlook, ?_⟩
  intro fid hne
  have hstate2 : (fetch_data (fetch_data initialCatalog (allOkReads us cs ss ms bs)).2
      (allOkReads us cs ss ms bs)).2.faculty_subject_map =
      ms.foldl insertMapping
        (fetch_data initialCatalog (allOkReads us cs ss ms bs)).2.faculty_subject_map := by
    rw [fetch_data_all_ok]
    simp only [mergeBatches, mergeMappings, mergeSubjects, mergeClassrooms, mergeUsers]
  rw [hstate2, foldl_insertMapping_lookup, hlook fid, if_neg hne]

/-- Witness for C5 amended at a concrete one-row store. -/
theorem fetch_data_merge_semantics_witness :
    ((([profUser].filter (fun u => u.role == "faculty")).map User.id).Nodup ∧
      (([lectureRoom].map Classroom.id).Nodup) ∧
      (([thermoSubject].map Subject.id).Nodup) ∧
      (([mechBatch].map Batch.id).Nodup)) ∧
    (fetch_data initialCatalog
        (allOkReads [profUser] [lectureRoom] [thermoSubject] [mechMapping] [mechBatch])).2.users =
      (([profUser].filter (fun u => u.role == "faculty")).map (fun u => (u.id, u))) :=
  ⟨⟨by decide, by decide, by decide, by decide⟩,
    (fetch_data_merge_semantics [profUser] [lectureRoom] [thermoSubject] [mechMapping]
      [mechBatch] (by decide) (by decide) (by decide) (by decide)).2.1⟩

/-! ## Claim C4: the validator's deficit branch -/

/-- The remaining-capacity estimate as the specification words it: the sum
over qualified faculty (each counted once, with their first qualification
row for the subject) of the positive part of max_hours_per_week minus the
hours already assigned to that faculty for that subject. -/
def remaining_capacity_spec (cat : Catalog) (slots : List Slot) (subject_id : String) : Nat :=
  ((cat.faculty_subject_map.filter
      (fun p => p.2.any (fun m => m.subject_id == subject_id))).map
    (fun p =>
      (match p.2.find? (fun m => m.subject_id == subject_id) with
        | some m => m.max_hours_per_week
        | none => 0) -
      per_faculty_subject_assigned slots p.1 subject_id)).sum

lemma rc_scan_seen (assigned : Nat) (sid fid : String) :
    ∀ (maps : List Mapping) (seen : List String) (acc : Nat),
      seen.contains fid = true →
      rc_scan assigned sid fid maps seen acc = (seen, acc) := by
  intro maps
  induction maps with
  | nil => intro seen acc _; rfl
  | cons m ms ih =>
    intro seen acc h
    rw [rc_scan]
    have hcond : (m.subject_id == sid && !(seen.contains fid)) = false := by
      rw [h]
      simp
    rw [hcond]
    simp only [Bool.false_eq_true, if_false]
    exact ih seen acc h

lemma rc_scan_not_seen (assigned : Nat) (sid fid : String) :
    ∀ (maps : List Mapping) (seen : List String) (acc : Nat),
      seen.contains fid = false →
      rc_scan assigned sid fid maps seen acc =
        (match maps.find? (fun m => m.subject_id == sid) with
         | some m => (fid :: seen, acc + (m.max_hours_per_week - assigned))
         | none => (seen, acc)) := by
  intro maps
  induction maps with
  | nil => intro seen acc _; rfl
  | cons m ms ih =>
    intro seen acc h
    rw [rc_scan]
    by_cases hm : (m.subject_id == sid) = true
    · have hcond : (m.subject_id == sid && !(seen.contains fid)) = true := by
        rw [hm, h]
        rfl
      rw [hcond]
      simp only [if_true]
      have hseen : (fid :: seen).contains fid = true := by
        simp [List.contains_cons]
      rw [rc_scan_seen assigned sid fid ms (fid :: seen) _ hseen]
      have hfind : (m :: ms).find? (fun m => m.subject_id == sid) = some m := by
        rw [List.find?_cons]
        rw [hm]
      rw [hfind]
    · have hcond : (m.subject_id == sid && !(seen.contains fid)) = false := by
        rw [Bool.not_eq_true] at hm
        rw [hm]
        rfl
      rw [hcond]
      simp only [Bool.false_eq_true, if_false]
      rw [ih seen acc h]
      have hfind : (m :: ms).find? (fun m => m.subject_id == sid) =
          ms.find? (fun m => m.subject_id == sid) := by
        rw [List.find?_cons]
        rw [Bool.not_eq_true] at hm
        rw [hm]
      rw [hfind]

lemma rc_outer_spec (slots : List Slot) (sid : String) :
    ∀ (l : List (String × List Mapping)) (seen : List String) (acc : Nat),
      (∀ p ∈ l, seen.contains p.1 = false) →
      (l.map Prod.fst).Nodup →
      rc_outer slots sid l seen acc =
        acc + ((l.filter (fun p => p.2.any (fun m => m.subject_id == sid))).map
          (fun p =>
            (match p.2.find? (fun m => m.subject_id == sid) with
              | some m => m.max_hours_per_week
              | none => 0) -
            per_faculty_subject_assigned slots p.1 sid)).sum := by
  intro l
  induction l with
  | nil => intro seen acc _ _; simp [rc_outer]
  | cons p ps ih =>
    intro seen acc hfresh hnd
    rw [List.map_cons, List.nodup_cons] at hnd
    rw [rc_outer]
    rw [rc_scan_not_seen _ _ _ _ _ _ (hfresh p (by simp))]
    cases hfind : p.2.find? (fun m => m.subject_id == sid) with
    | some m =>
      have hpm : (fun m : Mapping => m.subject_id == sid) m = true :=
        @List.find?_some Mapping (fun m => m.subject_id == sid) m p.2 hfind
      have hany : p.2.any (fun m => m.subject_id == sid) = true :=
        List.any_eq_true.mpr ⟨m, List.mem_of_find?_eq_some hfind, hpm⟩
      have hfl : List.filter (fun q : String × List Mapping =>
            q.2.any (fun m => m.subject_id == sid)) (p :: ps) =
          p :: List.filter (fun q : String × List Mapping =>
            q.2.any (fun m => m.subject_id == sid)) ps := by
        rw [List.filter_cons]
        simp [hany]
      rw [hfl, List.map_cons, List.sum_cons]
      have hfresh2 : ∀ q ∈ ps, (p.1 :: seen).contains q.1 = false := by
        intro q hq
        rw [List.contains_cons]
        have h1 : (q.1 == p.1) = false := by
          simp only [beq_eq_false_iff_ne, ne_eq]
          intro he
          exact hnd.1 (he ▸ List.mem_map_of_mem Prod.fst hq)
        rw [h1, hfresh q (by simp [hq])]
        rfl
      rw [ih (p.1 :: seen) _ hfresh2 hnd.2, hfind]
      dsimp only
      omega
    | none =>
      have hany : p.2.any (fun m => m.subject_id == sid) = false := by
        rw [Bool.eq_false_iff, ne_eq, List.any_eq_true]
        rintro ⟨m, hm, hms⟩
        rw [List.find?_eq_none] at hfind
        exact hfind m hm hms
      have hfl : List.filter (fun q : String × List Mapping =>
            q.2.any (fun m => m.subject_id == sid)) (p :: ps) =
          List.filter (fun q : String × List Mapping =>
            q.2.any (fun m => m.subject_id == sid)) ps := by
        rw [List.filter_cons]
        simp [hany]
      rw [hfl]
      exact ih seen acc (fun q hq => hfresh q (by simp [hq])) hnd.2

/-- On a catalog whose qualification-multimap keys are unique (as Python
dict keys always are), the validator's remaining-capacity loop computes
exactly the specification's sum. -/
lemma remaining_capacity_eq_spec (cat : Catalog) (slots : List Slot) (sid : String)
    (hnd : (cat.faculty_subject_map.map Prod.fst).Nodup) :
    remaining_capacity_for cat slots sid = remaining_capacity_spec cat slots sid := by
  rw [remaining_capacity_for,
    rc_outer_spec slots sid cat.faculty_subject_map [] 0 (fun p _ => rfl) hnd,
    remaining_capacity_spec]
  simp

/-- C4: for every slot set and catalog (with unique qualification-map keys,
as in every Python dict), and every curriculum subject whose scheduled
count falls short of its required weekly hours by `k > 0`, the per-subject
validator check records exactly one error naming the scheduled and
required counts, computes remaining capacity as the specification's sum
over qualified faculty of the positive part of (max_hours_per_week minus
hours already assigned), suggests adding faculty or raising quotas exactly
when that capacity is below the deficit and otherwise suggests reassigning
slack, suggests adding a classroom of the required room kind exactly when
none exists, always appends the extend-time-slots suggestion, and the
suggestion list is non-empty. -/
theorem validator_deficit_reporting (cat : Catalog) (slots : List Slot)
    (batch_id subject_id : String) (k : Nat)
    (hk : 0 < k)
    (hdef : batch_subject_hours slots batch_id subject_id + k =
      subject_weekly_hours cat subject_id)
    (hnd : (cat.faculty_subject_map.map Prod.fst).Nodup) :
    subject_check cat slots batch_id subject_id =
      (["Subject " ++ subject_name cat subject_id ++ ": " ++
          toString (batch_subject_hours slots batch_id subject_id) ++ "/" ++
          toString (subject_weekly_hours cat subject_id) ++ " hours"],
       ["Schedule additional " ++ toString k ++ " hour(s) for " ++
          subject_name cat subject_id ++ "."] ++
       (if remaining_capacity_spec cat slots subject_id < k then
          ["Add new qualified faculty for this subject or increase max_hours_per_week for existing qualified faculty."]
        else
          ["Reassign this subject\x27s hours to qualified faculty with remaining capacity."]) ++
       (if (cat.classrooms.filter (fun p =>
              p.2.ctype == subject_required_type cat subject_id)).isEmpty = true then
          ["Add new " ++ subject_required_type cat subject_id ++
            " classrooms to accommodate this subject."]
        else []) ++
       ["Extend working hours or add time slots to fit remaining classes."]) ∧
    remaining_capacity_for cat slots subject_id =
      remaining_capacity_spec cat slots subject_id ∧
    (subject_check cat slots batch_id subject_id).2 ≠ [] ∧
    (subject_id ∈ get_subjects_for_batch cat batch_id →
      "Subject " ++ subject_name cat subject_id ++ ": " ++
        toString (batch_subject_hours slots batch_id subject_id) ++ "/" ++
        toString (subject_weekly_hours cat subject_id) ++ " hours" ∈
        (validate_batch cat slots batch_id).errors) := by
  have hrc := remaining_capacity_eq_spec cat slots subject_id hnd
  have hne : (batch_subject_hours slots batch_id subject_id ==
      subject_weekly_hours cat subject_id) = false := by
    have hx : batch_subject_hours slots batch_id subject_id ≠
        subject_weekly_hours cat subject_id := by omega
    simpa using hx
  have hlt : batch_subject_hours slots batch_id subject_id <
      subject_weekly_hours cat subject_id := by omega
  have hdefk : subject_weekly_hours cat subject_id -
      batch_subject_hours slots batch_id subject_id = k := by omega
  have hmapempty : ∀ (l : List (String × Classroom)) (f : String × Classroom → String),
      (l.map f).isEmpty = l.isEmpty := by
    intro l f
    cases l <;> rfl
  have hmain : subject_check cat slots batch_id subject_id =
      (["Subject " ++ subject_name cat subject_id ++ ": " ++
          toString (batch_subject_hours slots batch_id subject_id) ++ "/" ++
          toString (subject_weekly_hours cat subject_id) ++ " hours"],
       ["Schedule additional " ++ toString k ++ " hour(s) for " ++
          subject_name cat subject_id ++ "."] ++
       (if remaining_capacity_spec cat slots subject_id < k then
          ["Add new qualified faculty for this subject or increase max_hours_per_week for existing qualified faculty."]
        else
          ["Reassign this subject\x27s hours to qualified faculty with remaining capacity."]) ++
       (if (cat.classrooms.filter (fun p =>
              p.2.ctype == subject_required_type cat subject_id)).isEmpty = true then
          ["Add new " ++ subject_required_type cat subject_id ++
            " classrooms to accommodate this subject."]
        else []) ++
       ["Extend working hours or add time slots to fit remaining classes."]) := by
    rw [subject_check]
    rw [hne]
    simp only [Bool.false_eq_true, if_false]
    rw [if_pos hlt, hdefk, hrc]
    rw [hmapempty]
  refine ⟨hmain, hrc, ?_, ?_⟩
  · rw [hmain]
    simp
  · intro hmem
    have hck : (subject_check cat slots batch_id subject_id).1 =
        ["Subject " ++ subject_name cat subject_id ++ ": " ++
          toString (batch_subject_hours slots batch_id subject_id) ++ "/" ++
          toString (subject_weekly_hours cat subject_id) ++ " hours"] := by
      rw [hmain]
    simp only [validate_batch]
    apply List.mem_append.mpr
    left
    rw [List.mem_flatten]
    refine ⟨["Subject " ++ subject_name cat subject_id ++ ": " ++
        toString (batch_subject_hours slots batch_id subject_id) ++ "/" ++
        toString (subject_weekly_hours cat subject_id) ++ " hours"], ?_, by simp⟩
    rw [List.mem_map]
    refine ⟨subject_check cat slots batch_id subject_id, ?_, hck⟩
    rw [List.mem_map]
    exact ⟨subject_id, hmem, rfl⟩

/-- A two-slot schedule for the scenario batch, leaving a deficit of 2
hours against the 4 weekly hours of its subject. -/
def deficitSlots : List Slot :=
  [ { id := "x1", day := "Monday", time := "9:00-10:00", classroom_id := "c1",
      subject_id := "s1", faculty_id := "f1", batch_id := "b1" },
    { id := "x2", day := "Tuesday", time := "9:00-10:00", classroom_id := "c1",
      subject_id := "s1", faculty_id := "f1", batch_id := "b1" } ]

/-- Witness for C4 at the scenario catalog with a concrete 2-hour deficit. -/
theorem validator_deficit_reporting_witness :
    (0 < 2 ∧
      batch_subject_hours deficitSlots "b1" "s1" + 2 =
        subject_weekly_hours scenarioCatalog "s1" ∧
      (scenarioCatalog.faculty_subject_map.map Prod.fst).Nodup) ∧
    remaining_capacity_for scenarioCatalog deficitSlots "s1" =
      remaining_capacity_spec scenarioCatalog deficitSlots "s1" :=
  ⟨⟨by decide, by decide, by decide⟩,
    (validator_deficit_reporting scenarioCatalog deficitSlots "b1" "s1" 2
      (by decide) (by decide) (by decide)).2.1⟩

/-! ## Claim C9: the single-batch scenario -/

/-- C9 counterexample: the claim asserts the generator places exactly 4
slots for every sequence of random choices, but with the random stream
that always picks the first (day, time) cell the first task succeeds and
the remaining three tasks exhaust their 200-attempt budgets on an occupied
cell: only 1 slot is placed, and the validator reports the batch status
`ERROR` rather than `OK`. -/
theorem scenario_generator_adversarial_randomness :
    (generate_in_memory_timetable scenarioCatalog (fun l => l) []).length = 1 ∧
    (dictLookup (validate_generated_slots scenarioCatalog
        (generate_in_memory_timetable scenarioCatalog (fun l => l) [])).batches "b1").map
      BatchReport.status = some "ERROR" := by decide

/-- A random stream under which each of the four tasks succeeds on its
first attempt, on four distinct days. -/
def spreadRand : List Nat := [0, 0, 0, 0, 1, 0, 0, 0, 2, 0, 0, 0, 3, 0, 0, 0]

/-- C9 amended: on the scenario catalog (one Mechanical batch, one 4-hour
subject, one qualified faculty with quota 8, one matching classroom), for
every sequence of random choices the generator places at most 4 slots,
each on a distinct (day, time) cell; and there is a sequence of random
choices — the identity shuffle with `spreadRand` — for which it places
exactly 4 slots on distinct cells and the validator reports the batch
status `OK`. -/
theorem scenario_generator_places_at_most_four :
    (∀ (shuffle : List String → List String) (rand : List Nat),
      (∀ l, List.Perm (shuffle l) l) →
      (generate_in_memory_timetable scenarioCatalog shuffle rand).length ≤ 4 ∧
      (generate_in_memory_timetable scenarioCatalog shuffle rand).Pairwise
        (fun a b => ¬(a.day = b.day ∧ a.time = b.time))) ∧
    ((generate_in_memory_timetable scenarioCatalog (fun l => l) spreadRand).length = 4 ∧
      (generate_in_memory_timetable scenarioCatalog (fun l => l) spreadRand).Pairwise
        (fun a b => ¬(a.day = b.day ∧ a.time = b.time)) ∧
      (dictLookup (validate_generated_slots scenarioCatalog
          (generate_in_memory_timetable scenarioCatalog (fun l => l) spreadRand)).batches
        "b1").map BatchReport.status = some "OK") := by
  constructor
  · intro shuffle rand hperm
    obtain ⟨new, h1, h2, h3, _⟩ := schedule_batch_slots scenarioCatalog shuffle
      { slots := [], fsh := fun _ => 0, rand := rand } ("b1", mechBatch)
    have hgen : generate_in_memory_timetable scenarioCatalog shuffle rand = new := by
      rw [generate_in_memory_timetable]
      show (List.foldl (schedule_batch scenarioCatalog shuffle)
        { slots := [], fsh := fun _ => 0, rand := rand } [("b1", mechBatch)]).slots = new
      rw [List.foldl_cons, List.foldl_nil, h1]
      simp
    constructor
    · rw [hgen]
      have hlen : (shuffle (flatTasks scenarioCatalog ("b1", mechBatch).1)).length =
          (flatTasks scenarioCatalog ("b1", mechBatch).1).length := (hperm _).length_eq
      have hfl : (flatTasks scenarioCatalog ("b1", mechBatch).1).length = 4 := by decide
      omega
    · have hpair := (generate_state_inv scenarioCatalog shuffle rand).1
      have hbatch : ∀ sl ∈ generate_in_memory_timetable scenarioCatalog shuffle rand,
          sl.batch_id = "b1" := by
        rw [hgen]
        exact h3
      refine List.Pairwise.imp_of_mem ?_ hpair
      intro a b ha hb hd habs
      exact hd.2.2 ⟨habs.1, habs.2, by rw [hbatch a ha, hbatch b hb]⟩
  · exact ⟨by decide, by decide, by decide⟩

/-- Witness for C9 amended: the universal bound instantiated at the
identity shuffle with the empty stream, together with the concrete
4-slot run. -/
theorem scenario_generator_places_at_most_four_witness :
    (generate_in_memory_timetable scenarioCatalog (fun l => l) []).length ≤ 4 ∧
    (generate_in_memory_timetable scenarioCatalog (fun l => l) spreadRand).length = 4 :=
  ⟨(scenario_generator_places_at_most_four.1 (fun l => l) []
      (fun l => List.Perm.refl l)).1,
    scenario_generator_places_at_most_four.2.1⟩

/-- The slot the generator emits first on the scenario catalog under the
identity shuffle and `spreadRand`. -/
def sampleSlot : Slot :=
  { id := "b1_s1_Monday_900-1000", day := "Monday", time := "9:00-10:00",
    classroom_id := "c1", subject_id := "s1", faculty_id := "f1", batch_id := "b1" }

/-- Witness for C6 at a concrete generated slot. -/
theorem generated_slots_faculty_qualified_witness :
    sampleSlot ∈ generate_in_memory_timetable scenarioCatalog (fun l => l) spreadRand ∧
    holdsQualification scenarioCatalog sampleSlot :=
  ⟨by decide,
    generated_slots_faculty_qualified scenarioCatalog (fun l => l) spreadRand sampleSlot
      (by decide)⟩

/-- Witness for C7 at a concrete generated slot. -/
theorem generated_slots_room_kind_matches_witness :
    sampleSlot ∈ generate_in_memory_timetable scenarioCatalog (fun l => l) spreadRand ∧
    roomKindMatches scenarioCatalog sampleSlot :=
  ⟨by decide,
    generated_slots_room_kind_matches scenarioCatalog (fun l => l) spreadRand sampleSlot
      (by decide)⟩
